import Mathlib

/-!
Verification of the repository-registry lookup and filtering layer
(`internal/reporegistry/reporegistry.go`).

The registry wraps an immutable table mapping a distribution name to a
mapping from an architecture name to an ordered sequence of repository
configurations.  We embed the table as nested association lists (Go map
keys are unique; `List.lookup` on a duplicate-free association list is
exactly map indexing), repository configurations as a structure keeping
the one field the registry inspects (`ImageTypeTags`) plus an opaque
identifying name, and the fallible query operations as functions into
`Except RegistryError`.  The error type mirrors the distinct
`fmt.Errorf` messages of the source, with `message` recovering the
exact formatted string.
-/

namespace RepoRegistryModel

/-- RepoConfig: one repository definition.  The registry reads only
`ImageTypeTags`; `Name` stands for the rest of the (opaque)
identifying configuration. -/
structure RepoConfig where
  Name : String
  ImageTypeTags : List String
deriving DecidableEq, Repr

/-- DistrosRepoConfigs: distro name -> arch name -> ordered repo list,
embedded as nested association lists. -/
def DistrosRepoConfigs := List (String × List (String × List RepoConfig))

/-- RepoRegistry: owns one table, set at construction. -/
structure RepoRegistry where
  repos : DistrosRepoConfigs

/-- NewFromDistrosRepoConfigs: wrap an already-built table. -/
def NewFromDistrosRepoConfigs (distrosRepoConfigs : DistrosRepoConfigs) : RepoRegistry :=
  ⟨distrosRepoConfigs⟩

/-- RegistryError: the four distinct error values the source produces
via fmt.Errorf, as a sum so the kinds are first-class. -/
inductive RegistryError where
  | notFound (distro arch : String)
  | noArchForImageType
  | noDistroForArchOfImageType
  | noDistroForArch
deriving DecidableEq, Repr

/-- message: the exact formatted string of each fmt.Errorf call. -/
def RegistryError.message : RegistryError → String
  | .notFound d a =>
      "there are no repositories for distribution '" ++ d ++ "' and architecture '" ++ a ++ "'"
  | .noArchForImageType =>
      "there is no architecture associated with the provided image type"
  | .noDistroForArchOfImageType =>
      "there is no distribution associated with the architecture associated with the provided image type"
  | .noDistroForArch =>
      "there is no distribution associated with the provided architecture"

/-- DistroHasRepos: direct table lookup; `(repos, found)`.  A missing
distro key or a missing arch key under it yields the zero value
(empty list) and `found = false`. -/
def RepoRegistry.DistroHasRepos (r : RepoRegistry) (distro arch : String) :
    List RepoConfig × Bool :=
  match r.repos.lookup distro with
  | none => ([], false)
  | some distroRepos =>
    match distroRepos.lookup arch with
    | none => ([], false)
    | some repos => (repos, true)

/-- archLoop: the accumulation loop of ReposByArchName — skip a repo
when `!includeTagged && len(repo.ImageTypeTags) != 0`, append
otherwise. -/
def archLoop (includeTagged : Bool) : List RepoConfig → List RepoConfig
  | [] => []
  | repo :: rest =>
    if !includeTagged && repo.ImageTypeTags.length != 0 then
      archLoop includeTagged rest
    else
      repo :: archLoop includeTagged rest

/-- ReposByArchName: look the pair up; absent ⇒ NotFoundError naming
both strings; present ⇒ the stored sequence filtered by the tag
policy. -/
def RepoRegistry.ReposByArchName (r : RepoRegistry) (distro arch : String)
    (includeTagged : Bool) : Except RegistryError (List RepoConfig) :=
  match r.DistroHasRepos distro arch with
  | (_, false) => .error (.notFound distro arch)
  | (archRepos, true) => .ok (archLoop includeTagged archRepos)

/-- tagLoop: the inner loop of reposByImageTypeName — scan the tags,
stop (break) at the first one equal to the requested image type. -/
def tagLoop (imageType : String) : List String → Bool
  | [] => false
  | imageNameTag :: rest =>
    if imageNameTag == imageType then true else tagLoop imageType rest

/-- imageTypeLoop: the outer loop of reposByImageTypeName — keep a
repo when its tag list is empty, else when the inner scan finds the
image type; each kept repo is appended exactly once. -/
def imageTypeLoop (imageType : String) : List RepoConfig → List RepoConfig
  | [] => []
  | repo :: rest =>
    if repo.ImageTypeTags.length == 0 then
      repo :: imageTypeLoop imageType rest
    else if tagLoop imageType repo.ImageTypeTags then
      repo :: imageTypeLoop imageType rest
    else
      imageTypeLoop imageType rest

/-- reposByImageTypeName: fetch everything for the pair (tagged
included) and apply the tag-match rule; propagate the error
unchanged. -/
def RepoRegistry.reposByImageTypeName (r : RepoRegistry) (distro arch imageType : String) :
    Except RegistryError (List RepoConfig) :=
  match r.ReposByArchName distro arch true with
  | .error err => .error err
  | .ok archRepos => .ok (imageTypeLoop imageType archRepos)

/-- DistroDescriptor: the external distribution descriptor; only its
name is read. -/
structure DistroDescriptor where
  Name : String

/-- ArchDescriptor: the external architecture descriptor; an unset
parent distribution (nil in Go, including a typed nil inside the
interface) is `none`. -/
structure ArchDescriptor where
  Name : String
  Distro : Option DistroDescriptor

/-- ImageTypeDescriptor: the external image-type descriptor; an unset
owning architecture is `none`. -/
structure ImageTypeDescriptor where
  Name : String
  Arch : Option ArchDescriptor

/-- ReposByArch: reject an unset distro reference before any lookup,
then delegate by names. -/
def RepoRegistry.ReposByArch (r : RepoRegistry) (arch : ArchDescriptor)
    (includeTagged : Bool) : Except RegistryError (List RepoConfig) :=
  match arch.Distro with
  | none => .error .noDistroForArch
  | some d => r.ReposByArchName d.Name arch.Name includeTagged

/-- ReposByImageType: reject an unset arch reference, then an unset
distro reference under it, before any lookup; then delegate by
names. -/
def RepoRegistry.ReposByImageType (r : RepoRegistry) (imageType : ImageTypeDescriptor) :
    Except RegistryError (List RepoConfig) :=
  match imageType.Arch with
  | none => .error .noArchForImageType
  | some arch =>
    match arch.Distro with
    | none => .error .noDistroForArchOfImageType
    | some d => r.reposByImageTypeName d.Name arch.Name imageType.Name

/-! Bridge lemmas: the accumulation loops of the source are filters. -/

/-- archLoop with includeTagged = true keeps every repository. -/
theorem archLoop_true (l : List RepoConfig) : archLoop true l = l := by
  induction l with
  | nil => rfl
  | cons repo rest ih => simp [archLoop, ih]

/-- archLoop with includeTagged = false is the untagged filter. -/
theorem archLoop_false (l : List RepoConfig) :
    archLoop false l = l.filter (fun repo => repo.ImageTypeTags.isEmpty) := by
  induction l with
  | nil => rfl
  | cons repo rest ih =>
    by_cases h : repo.ImageTypeTags.isEmpty
    · have hlen : (repo.ImageTypeTags.length != 0) = false := by
        simp [List.isEmpty_iff] at h
        simp [h]
      simp [archLoop, hlen, List.filter_cons, h, ih]
    · have hlen : (repo.ImageTypeTags.length != 0) = true := by
        simp [List.isEmpty_iff] at h
        simp [h]
      simp [archLoop, hlen, List.filter_cons, h, ih]

/-- tagLoop decides exact, case-sensitive membership of the image-type
name in the tag list. -/
theorem tagLoop_eq_mem (it : String) (tags : List String) :
    tagLoop it tags = decide (it ∈ tags) := by
  induction tags with
  | nil => rfl
  | cons t rest ih =>
    by_cases h : t = it
    · simp [tagLoop, h]
    · have h' : ¬ it = t := fun hh => h hh.symm
      simp [tagLoop, ih, List.mem_cons, h, h']

/-- matchesImageType: the selection predicate of reposByImageTypeName,
phrased as the spec does — empty tag list, or the name is an element. -/
def matchesImageType (it : String) (repo : RepoConfig) : Bool :=
  repo.ImageTypeTags.isEmpty || decide (it ∈ repo.ImageTypeTags)

/-- imageTypeLoop is the filter by matchesImageType. -/
theorem imageTypeLoop_eq_filter (it : String) (l : List RepoConfig) :
    imageTypeLoop it l = l.filter (matchesImageType it) := by
  induction l with
  | nil => rfl
  | cons repo rest ih =>
    by_cases hempty : repo.ImageTypeTags.isEmpty
    · have hlen : (repo.ImageTypeTags.length == 0) = true := by
        simp [List.isEmpty_iff] at hempty
        simp [hempty]
      simp [imageTypeLoop, hlen, List.filter_cons, matchesImageType, hempty, ih]
    · have hlen : (repo.ImageTypeTags.length == 0) = false := by
        simp [List.isEmpty_iff] at hempty
        simp [hempty]
      by_cases hmem : it ∈ repo.ImageTypeTags
      · simp [imageTypeLoop, hlen, tagLoop_eq_mem, hmem, List.filter_cons,
          matchesImageType, hempty, ih]
      · simp [imageTypeLoop, hlen, tagLoop_eq_mem, hmem, List.filter_cons,
          matchesImageType, hempty, ih]

/-- count_filter_general: the multiplicity of an element in a filtered
list is its multiplicity in the original when it satisfies the
predicate, zero otherwise. -/
theorem count_filter_general {α : Type} [BEq α] [LawfulBEq α]
    (p : α → Bool) (l : List α) (a : α) :
    (l.filter p).count a = if p a then l.count a else 0 := by
  induction l with
  | nil => simp
  | cons x xs ih =>
    by_cases hx : p x
    · rw [List.filter_cons_of_pos hx]
      by_cases hxa : x = a
      · subst hxa
        simp [List.count_cons, ih, hx]
      · simp [List.count_cons, ih, hxa]
    · rw [List.filter_cons_of_neg hx]
      by_cases hxa : x = a
      · subst hxa
        simp [List.count_cons, ih, hx]
      · simp [List.count_cons, ih, hxa]

/-- DistroHasRepos found decomposition: found is true exactly when both
keys are present, and then the stored sequence is returned verbatim. -/
theorem DistroHasRepos_spec (r : RepoRegistry) (d a : String) :
    ((r.DistroHasRepos d a).2 = true ↔
      ∃ m repos, r.repos.lookup d = some m ∧ m.lookup a = some repos)
    ∧ (∀ m repos, r.repos.lookup d = some m → m.lookup a = some repos →
        r.DistroHasRepos d a = (repos, true)) := by
  constructor
  · cases hd : r.repos.lookup d with
    | none => simp [RepoRegistry.DistroHasRepos, hd]
    | some m =>
      cases ha : m.lookup a with
      | none => simp [RepoRegistry.DistroHasRepos, hd, ha]
      | some repos =>
        simp [RepoRegistry.DistroHasRepos, hd, ha]
  · intro m repos hd ha
    simp [RepoRegistry.DistroHasRepos, hd, ha]

/-- ReposByArchName on a present pair applies the loop to the stored
sequence. -/
theorem ReposByArchName_found (r : RepoRegistry) (d a : String) (includeTagged : Bool)
    (h : (r.DistroHasRepos d a).2 = true) :
    r.ReposByArchName d a includeTagged =
      .ok (archLoop includeTagged (r.DistroHasRepos d a).1) := by
  unfold RepoRegistry.ReposByArchName
  cases hda : r.DistroHasRepos d a with
  | mk repos found =>
    cases found with
    | false => rw [hda] at h; exact absurd h (by simp)
    | true => simp

/-- ReposByArchName on an absent pair is the NotFoundError for that
pair. -/
theorem ReposByArchName_notFound (r : RepoRegistry) (d a : String) (includeTagged : Bool)
    (h : (r.DistroHasRepos d a).2 = false) :
    r.ReposByArchName d a includeTagged = .error (.notFound d a) := by
  unfold RepoRegistry.ReposByArchName
  cases hda : r.DistroHasRepos d a with
  | mk repos found =>
    cases found with
    | false => simp
    | true => rw [hda] at h; exact absurd h (by simp)

/-! Concrete registries used by the example scenario and the
witnesses. -/

/-- repoA: untagged. -/
def repoA : RepoConfig := ⟨"A", []⟩

/-- repoB: tagged qcow2. -/
def repoB : RepoConfig := ⟨"B", ["qcow2"]⟩

/-- repoC: tagged qcow2 and ami. -/
def repoC : RepoConfig := ⟨"C", ["qcow2", "ami"]⟩

/-- fedoraRegistry: the spec's example table. -/
def fedoraRegistry : RepoRegistry :=
  NewFromDistrosRepoConfigs [("fedora", [("x86_64", [repoA, repoB, repoC])])]

/-- repoDup: a repository whose tag list holds the same tag twice. -/
def repoDup : RepoConfig := ⟨"D", ["t", "t"]⟩

/-- dupRegistry: a registry holding repoDup. -/
def dupRegistry : RepoRegistry :=
  NewFromDistrosRepoConfigs [("d", [("a", [repoDup])])]

/-- emptyPairRegistry: a registry whose one (distro, arch) pair maps to
the empty sequence. -/
def emptyPairRegistry : RepoRegistry :=
  NewFromDistrosRepoConfigs [("d", [("a", [])])]

/-- reposByImageTypeName on a present pair is the tag-match filter of
the stored sequence. -/
theorem reposByImageTypeName_found (r : RepoRegistry) (d a it : String)
    (h : (r.DistroHasRepos d a).2 = true) :
    r.reposByImageTypeName d a it =
      .ok (((r.DistroHasRepos d a).1).filter (matchesImageType it)) := by
  unfold RepoRegistry.reposByImageTypeName
  rw [ReposByArchName_found r d a true h]
  simp [archLoop_true, imageTypeLoop_eq_filter]

/-- C1: on a present (distro, arch) pair, reposByImageTypeName returns
exactly the stored repositories whose tag list is empty or contains the
requested image-type name as an exact element, in stored order (it is
the filter of the stored sequence by that predicate). -/
theorem c1_reposByImageTypeName_is_tag_filter (r : RepoRegistry) (d a it : String)
    (h : (r.DistroHasRepos d a).2 = true) :
    r.reposByImageTypeName d a it =
      .ok (((r.DistroHasRepos d a).1).filter
        (fun repo => repo.ImageTypeTags.isEmpty || decide (it ∈ repo.ImageTypeTags))) :=
  reposByImageTypeName_found r d a it h

/-- c1 witness: the example registry at image type ami. -/
theorem c1_reposByImageTypeName_is_tag_filter_witness :
    (fedoraRegistry.DistroHasRepos "fedora" "x86_64").2 = true ∧
    fedoraRegistry.reposByImageTypeName "fedora" "x86_64" "ami" =
      .ok (((fedoraRegistry.DistroHasRepos "fedora" "x86_64").1).filter
        (fun repo => repo.ImageTypeTags.isEmpty || decide ("ami" ∈ repo.ImageTypeTags))) :=
  ⟨by decide, c1_reposByImageTypeName_is_tag_filter fedoraRegistry "fedora" "x86_64" "ami"
    (by decide)⟩

/-- C2: DistroHasRepos reports found = false exactly when the distro
key is absent or the arch key is absent under it; when both are present
it returns the stored sequence unmodified with found = true. -/
theorem c2_DistroHasRepos_key_presence (r : RepoRegistry) (d a : String) :
    ((r.DistroHasRepos d a).2 = false ↔
      r.repos.lookup d = none ∨
        ∃ m, r.repos.lookup d = some m ∧ m.lookup a = none)
    ∧ (∀ m repos, r.repos.lookup d = some m → m.lookup a = some repos →
        r.DistroHasRepos d a = (repos, true)) := by
  constructor
  · unfold RepoRegistry.DistroHasRepos
    split
    next hd =>
      exact iff_of_true rfl (Or.inl hd)
    next m hd =>
      split
      next ha =>
        exact iff_of_true rfl (Or.inr ⟨m, hd, ha⟩)
      next repos ha =>
        refine iff_of_false (by simp) ?_
        rintro (hnone | ⟨m2, hm2, hnone⟩)
        · rw [hd] at hnone
          exact Option.noConfusion hnone
        · rw [hd] at hm2
          injection hm2 with hm2
          subst hm2
          rw [ha] at hnone
          exact Option.noConfusion hnone
  · intro m repos hd ha
    simp [RepoRegistry.DistroHasRepos, hd, ha]

/-- c2 witness: the example registry returns its stored sequence. -/
theorem c2_DistroHasRepos_key_presence_witness :
    fedoraRegistry.DistroHasRepos "fedora" "x86_64" = ([repoA, repoB, repoC], true) :=
  (c2_DistroHasRepos_key_presence fedoraRegistry "fedora" "x86_64").2
    [("x86_64", [repoA, repoB, repoC])] [repoA, repoB, repoC] (by decide) (by decide)

/-- C3: on a present pair, ReposByArchName with includeTagged = false
drops exactly the repositories with non-empty tags (a filter, so stored
order is preserved) and with includeTagged = true returns every stored
repository. -/
theorem c3_ReposByArchName_includeTagged (r : RepoRegistry) (d a : String)
    (h : (r.DistroHasRepos d a).2 = true) :
    r.ReposByArchName d a false =
      .ok (((r.DistroHasRepos d a).1).filter (fun repo => repo.ImageTypeTags.isEmpty))
    ∧ r.ReposByArchName d a true = .ok ((r.DistroHasRepos d a).1) :=
  ⟨by rw [ReposByArchName_found r d a false h, archLoop_false],
   by rw [ReposByArchName_found r d a true h, archLoop_true]⟩

/-- c3 witness: the example registry with both flag values. -/
theorem c3_ReposByArchName_includeTagged_witness :
    (fedoraRegistry.DistroHasRepos "fedora" "x86_64").2 = true ∧
    (fedoraRegistry.ReposByArchName "fedora" "x86_64" false =
      .ok (((fedoraRegistry.DistroHasRepos "fedora" "x86_64").1).filter
        (fun repo => repo.ImageTypeTags.isEmpty))
    ∧ fedoraRegistry.ReposByArchName "fedora" "x86_64" true =
      .ok ((fedoraRegistry.DistroHasRepos "fedora" "x86_64").1)) :=
  ⟨by decide, c3_ReposByArchName_includeTagged fedoraRegistry "fedora" "x86_64" (by decide)⟩

/-- C4: on an absent pair, ReposByArchName fails with the NotFoundError
for that pair (no repository sequence accompanies the error), its
message embeds both requested names, and reposByImageTypeName
propagates the same error. -/
theorem c4_notFound_names_both (r : RepoRegistry) (d a : String) (includeTagged : Bool)
    (it : String) (h : (r.DistroHasRepos d a).2 = false) :
    r.ReposByArchName d a includeTagged = .error (.notFound d a)
    ∧ r.reposByImageTypeName d a it = .error (.notFound d a)
    ∧ (∃ s1 s2 s3, (RegistryError.notFound d a).message = s1 ++ d ++ s2 ++ a ++ s3) := by
  refine ⟨ReposByArchName_notFound r d a includeTagged h, ?_, ?_⟩
  · unfold RepoRegistry.reposByImageTypeName
    rw [ReposByArchName_notFound r d a true h]
  · exact ⟨"there are no repositories for distribution '", "' and architecture '", "'", rfl⟩

/-- c4 witness: an unknown distribution on the example registry. -/
theorem c4_notFound_names_both_witness :
    (fedoraRegistry.DistroHasRepos "centos" "x86_64").2 = false ∧
    (fedoraRegistry.ReposByArchName "centos" "x86_64" true = .error (.notFound "centos" "x86_64")
    ∧ fedoraRegistry.reposByImageTypeName "centos" "x86_64" "qcow2" =
        .error (.notFound "centos" "x86_64")
    ∧ (∃ s1 s2 s3, (RegistryError.notFound "centos" "x86_64").message =
        s1 ++ "centos" ++ s2 ++ "x86_64" ++ s3)) :=
  ⟨by decide, c4_notFound_names_both fedoraRegistry "centos" "x86_64" true "qcow2" (by decide)⟩

/-- C5: a descriptor with an unset required parent reference makes
ReposByArch and ReposByImageType fail with the corresponding
invalid-reference error before any table lookup — for every table —
and that error is never the NotFoundError of any pair. -/
theorem c5_invalid_reference_before_lookup (r : RepoRegistry) (archD : ArchDescriptor)
    (itD : ImageTypeDescriptor) (includeTagged : Bool) :
    (archD.Distro = none →
      r.ReposByArch archD includeTagged = .error .noDistroForArch)
    ∧ (itD.Arch = none → r.ReposByImageType itD = .error .noArchForImageType)
    ∧ (∀ arch, itD.Arch = some arch → arch.Distro = none →
        r.ReposByImageType itD = .error .noDistroForArchOfImageType)
    ∧ (∀ d a, RegistryError.noDistroForArch ≠ RegistryError.notFound d a
        ∧ RegistryError.noArchForImageType ≠ RegistryError.notFound d a
        ∧ RegistryError.noDistroForArchOfImageType ≠ RegistryError.notFound d a) := by
  refine ⟨?_, ?_, ?_, ?_⟩
  · intro h
    simp [RepoRegistry.ReposByArch, h]
  · intro h
    simp [RepoRegistry.ReposByImageType, h]
  · intro arch h1 h2
    simp [RepoRegistry.ReposByImageType, h1, h2]
  · intro d a
    refine ⟨?_, ?_, ?_⟩ <;> intro h <;> exact RegistryError.noConfusion h

/-- c5 witness: orphan descriptors against the example registry. -/
theorem c5_invalid_reference_before_lookup_witness :
    fedoraRegistry.ReposByArch ⟨"x86_64", none⟩ true = .error .noDistroForArch
    ∧ fedoraRegistry.ReposByImageType ⟨"qcow2", none⟩ = .error .noArchForImageType
    ∧ fedoraRegistry.ReposByImageType ⟨"qcow2", some ⟨"x86_64", none⟩⟩ =
        .error .noDistroForArchOfImageType :=
  ⟨(c5_invalid_reference_before_lookup fedoraRegistry ⟨"x86_64", none⟩ ⟨"qcow2", none⟩
      true).1 rfl,
   (c5_invalid_reference_before_lookup fedoraRegistry ⟨"x86_64", none⟩ ⟨"qcow2", none⟩
      true).2.1 rfl,
   (c5_invalid_reference_before_lookup fedoraRegistry ⟨"x86_64", none⟩
      ⟨"qcow2", some ⟨"x86_64", none⟩⟩ true).2.2.1 ⟨"x86_64", none⟩ rfl rfl⟩

/-- C6: on a present pair, the includeTagged = false result is exactly
the untagged filter of the includeTagged = true result and a sublist of
it; and every successful output of ReposByArchName and
reposByImageTypeName is an order-preserving subsequence of the stored
architecture sequence. -/
theorem c6_outputs_are_subsequences (r : RepoRegistry) (d a it : String)
    (includeTagged : Bool) (h : (r.DistroHasRepos d a).2 = true) :
    (r.ReposByArchName d a true = .ok ((r.DistroHasRepos d a).1)
     ∧ r.ReposByArchName d a false =
         .ok (((r.DistroHasRepos d a).1).filter (fun repo => repo.ImageTypeTags.isEmpty))
     ∧ List.Sublist
         (((r.DistroHasRepos d a).1).filter (fun repo => repo.ImageTypeTags.isEmpty))
         ((r.DistroHasRepos d a).1))
    ∧ (∀ out, r.ReposByArchName d a includeTagged = .ok out →
        List.Sublist out ((r.DistroHasRepos d a).1))
    ∧ (∀ out, r.reposByImageTypeName d a it = .ok out →
        List.Sublist out ((r.DistroHasRepos d a).1)) := by
  refine ⟨⟨?_, ?_, ?_⟩, ?_, ?_⟩
  · rw [ReposByArchName_found r d a true h, archLoop_true]
  · rw [ReposByArchName_found r d a false h, archLoop_false]
  · exact List.filter_sublist _
  · intro out hout
    rw [ReposByArchName_found r d a includeTagged h] at hout
    cases hout
    cases includeTagged with
    | false => rw [archLoop_false]; exact List.filter_sublist _
    | true => rw [archLoop_true]
  · intro out hout
    rw [reposByImageTypeName_found r d a it h] at hout
    cases hout
    exact List.filter_sublist _

/-- c6 witness: the example registry. -/
theorem c6_outputs_are_subsequences_witness :
    (fedoraRegistry.DistroHasRepos "fedora" "x86_64").2 = true ∧
    (∀ out, fedoraRegistry.reposByImageTypeName "fedora" "x86_64" "ami" = .ok out →
      List.Sublist out ((fedoraRegistry.DistroHasRepos "fedora" "x86_64").1)) :=
  ⟨by decide, (c6_outputs_are_subsequences fedoraRegistry "fedora" "x86_64" "ami" false
    (by decide)).2.2⟩

/-- C7: concrete example — table fedora/x86_64 ↦ [A untagged,
B qcow2, C qcow2+ami]: qcow2 selects [A,B,C], ami selects [A,C], vhd
selects [A]. -/
theorem c7_example_scenario :
    fedoraRegistry.reposByImageTypeName "fedora" "x86_64" "qcow2" =
      .ok [repoA, repoB, repoC]
    ∧ fedoraRegistry.reposByImageTypeName "fedora" "x86_64" "ami" = .ok [repoA, repoC]
    ∧ fedoraRegistry.reposByImageTypeName "fedora" "x86_64" "vhd" = .ok [repoA] :=
  ⟨rfl, rfl, rfl⟩

/-- C8: the query operations are deterministic functions of the table
and the arguments — two registries holding the same table agree on
every lookup, so repeating an invocation cannot change the outcome. -/
theorem c8_queries_deterministic (r1 r2 : RepoRegistry) (d a it : String)
    (includeTagged : Bool) (h : r1.repos = r2.repos) :
    r1.DistroHasRepos d a = r2.DistroHasRepos d a
    ∧ r1.ReposByArchName d a includeTagged = r2.ReposByArchName d a includeTagged
    ∧ r1.reposByImageTypeName d a it = r2.reposByImageTypeName d a it := by
  obtain ⟨t1⟩ := r1
  obtain ⟨t2⟩ := r2
  have ht : t1 = t2 := h
  subst ht
  exact ⟨rfl, rfl, rfl⟩

/-- c8 witness: the example registry compared with itself. -/
theorem c8_queries_deterministic_witness :
    fedoraRegistry.reposByImageTypeName "fedora" "x86_64" "ami" =
      fedoraRegistry.reposByImageTypeName "fedora" "x86_64" "ami" :=
  (c8_queries_deterministic fedoraRegistry fedoraRegistry "fedora" "x86_64" "ami" true
    rfl).2.2

/-- C9: each stored repository contributes at most one output element:
the multiplicity of any repository in the result of
reposByImageTypeName equals its multiplicity in the stored sequence
when it matches (even if the requested name occurs several times in its
tags) and zero otherwise. -/
theorem c9_at_most_one_per_stored (r : RepoRegistry) (d a it : String)
    (repo : RepoConfig) (out : List RepoConfig)
    (h : (r.DistroHasRepos d a).2 = true)
    (hout : r.reposByImageTypeName d a it = .ok out) :
    out.count repo =
      if matchesImageType it repo then ((r.DistroHasRepos d a).1).count repo else 0 := by
  rw [reposByImageTypeName_found r d a it h] at hout
  cases hout
  exact count_filter_general (matchesImageType it) _ repo

/-- c9 witness: a repository tagged twice with the requested name still
appears exactly once. -/
theorem c9_at_most_one_per_stored_witness :
    (dupRegistry.DistroHasRepos "d" "a").2 = true
    ∧ dupRegistry.reposByImageTypeName "d" "a" "t" = .ok [repoDup]
    ∧ [repoDup].count repoDup =
        (if matchesImageType "t" repoDup
          then ((dupRegistry.DistroHasRepos "d" "a").1).count repoDup else 0) :=
  ⟨by decide, by rfl,
   c9_at_most_one_per_stored dupRegistry "d" "a" "t" repoDup [repoDup] (by decide) (by rfl)⟩

/-- C10: a pair present with an empty stored sequence is found:
DistroHasRepos answers ([], true) and both filtered lookups succeed
with the empty result rather than raising the NotFoundError. -/
theorem c10_present_empty_pair_succeeds (r : RepoRegistry) (d a it : String)
    (m : List (String × List RepoConfig))
    (hd : r.repos.lookup d = some m) (ha : m.lookup a = some []) :
    r.DistroHasRepos d a = ([], true)
    ∧ (∀ includeTagged, r.ReposByArchName d a includeTagged = .ok [])
    ∧ r.reposByImageTypeName d a it = .ok [] := by
  have hda : r.DistroHasRepos d a = ([], true) := by
    simp [RepoRegistry.DistroHasRepos, hd, ha]
  have hfound : (r.DistroHasRepos d a).2 = true := by rw [hda]
  refine ⟨hda, ?_, ?_⟩
  · intro includeTagged
    rw [ReposByArchName_found r d a includeTagged hfound, hda]
    cases includeTagged <;> rfl
  · rw [reposByImageTypeName_found r d a it hfound, hda]
    rfl

/-- c10 witness: the registry whose only pair stores the empty
sequence. -/
theorem c10_present_empty_pair_succeeds_witness :
    emptyPairRegistry.DistroHasRepos "d" "a" = ([], true)
    ∧ (∀ includeTagged, emptyPairRegistry.ReposByArchName "d" "a" includeTagged = .ok [])
    ∧ emptyPairRegistry.reposByImageTypeName "d" "a" "qcow2" = .ok [] :=
  c10_present_empty_pair_succeeds emptyPairRegistry "d" "a" "qcow2" [("a", [])]
    (by decide) (by decide)

end RepoRegistryModel
